import Mathlib

/-!
Shallow embedding of `salttesting/case.py`: the bounded subprocess runner
`ShellTestCase.run_script` and the stalled-job reconciler
`ModuleCase._check_state_return`, together with the marker regular
expression `STATE_FUNCTION_RUNNING_RE`.
-/

set_option autoImplicit false

namespace SaltCase

/-! ### The marker regular expression

`STATE_FUNCTION_RUNNING_RE` is
`The function (?:"|')(?P<state_func>.*)(?:"|') is running as PID (?P<pid>[\d]+) and was started at (?P<date>.*) with jid (?P<jid>[\d]+)`
used through `.match` (anchored at the start of the line, trailing text
allowed).  The embedding below implements exactly this pattern with
Python's leftmost, greedy backtracking semantics: `.*` prefers the longest
prefix (and never crosses a newline), `[\d]+` is a maximal nonempty digit
run (backtracking into it always fails because the following literal
starts with a non-digit), and the two quote alternations `(?:"|')` are
matched independently of each other. -/

def dquote : Char := Char.ofNat 34

def squote : Char := Char.ofNat 39

def isQuote (c : Char) : Bool := c = dquote || c = squote

/-- Strip a literal off the front of the input, Python regex literal match. -/
def dropLit : List Char → List Char → Option (List Char)
  | [], s => some s
  | _ :: _, [] => none
  | l :: ls, c :: cs => if c = l then dropLit ls cs else none

/-- Maximal (possibly empty) digit run at the front. -/
def takeDigitsAux : List Char → List Char × List Char
  | [] => ([], [])
  | c :: cs =>
    if c.isDigit then
      let p := takeDigitsAux cs
      (c :: p.1, p.2)
    else ([], c :: cs)

/-- `[\d]+`: maximal nonempty digit run at the front. -/
def takeDigits (s : List Char) : Option (List Char × List Char) :=
  let p := takeDigitsAux s
  if p.1 = [] then none else some p

/-- Attempt `" with jid " [\d]+` at the current position, returning the jid. -/
def jidHere (s : List Char) : Option (List Char) := do
  let rest ← dropLit " with jid ".data s
  let (jid, _) ← takeDigits rest
  pure jid

/-- `(?P<date>.*) with jid (?P<jid>[\d]+)` with a greedy `date`:
prefer extending `date` (never across a newline), falling back to matching
the literal at the current position. Returns `(date, jid)`. -/
def dateJid : List Char → Option (List Char × List Char)
  | [] => (jidHere []).map (fun j => ([], j))
  | c :: cs =>
    if c = '\n' then (jidHere (c :: cs)).map (fun j => ([], j))
    else
      match dateJid cs with
      | some (d, j) => some (c :: d, j)
      | none => (jidHere (c :: cs)).map (fun j => ([], j))

/-- Attempt the closing quote and everything after the function name at the
current position: `(?:"|') is running as PID [\d]+ and was started at `
followed by `dateJid`. Returns `(pid, date, jid)`. -/
def afterFuncHere : List Char → Option (List Char × List Char × List Char)
  | [] => none
  | q :: rest =>
    if isQuote q then do
      let r2 ← dropLit " is running as PID ".data rest
      let (pid, r3) ← takeDigits r2
      let r4 ← dropLit " and was started at ".data r3
      let (date, jid) ← dateJid r4
      pure (pid, date, jid)
    else none

/-- `(?P<state_func>.*)` (greedy, longest first, not across a newline)
followed by `afterFuncHere`. Returns `(state_func, pid, date, jid)`. -/
def funcScan : List Char → Option (List Char × List Char × List Char × List Char)
  | [] =>
    match afterFuncHere [] with
    | some (p, d, j) => some ([], p, d, j)
    | none => none
  | c :: cs =>
    if c = '\n' then
      match afterFuncHere (c :: cs) with
      | some (p, d, j) => some ([], p, d, j)
      | none => none
    else
      match funcScan cs with
      | some (f, p, d, j) => some (c :: f, p, d, j)
      | none =>
        match afterFuncHere (c :: cs) with
        | some (p, d, j) => some ([], p, d, j)
        | none => none

/-- The named groups of a successful `STATE_FUNCTION_RUNNING_RE.match`. -/
structure MarkerGroups where
  state_func : String
  pid : String
  date : String
  jid : String
deriving DecidableEq, Repr

/-- `STATE_FUNCTION_RUNNING_RE.match(s)`: anchored at the start, trailing
characters allowed. -/
def matchMarker (s : String) : Option MarkerGroups :=
  match dropLit "The function ".data s.data with
  | none => none
  | some rest =>
    match rest with
    | [] => none
    | q :: rest2 =>
      if isQuote q then
        match funcScan rest2 with
        | some (f, p, d, j) =>
          some ⟨String.mk f, String.mk p, String.mk d, String.mk j⟩
        | none => none
      else none

/-- `match.group('jid')` of a successful marker match. -/
def markerJid (s : String) : Option String := (matchMarker s).map (fun g => g.jid)

/-! ### The reconciler `ModuleCase._check_state_return`

The Python function receives the raw minion return `ret`.  A `dict` is
returned unchanged; a `list` is scanned item by item over a copy
(`for item in ret[:]`): non-string items and non-matching lines are left
alone, and for each first occurrence of a jid the suite issues
`saltutil.find_job` and `saltutil.kill_job` for it and appends one
`[TEST SUITE ENFORCED]...` diagnostic line to `ret`; any other value is
returned unchanged.  `find_job`/`kill_job` results are modelled as oracles
`fj kj : String -> String` giving the `repr` text interpolated into the
diagnostic. -/

/-- An element of the raw return list: a string line or a non-string item
(which `_check_state_return` skips). -/
inductive Item where
  | str (s : String)
  | nonStr
deriving DecidableEq, Repr

/-- The raw return value handed to `_check_state_return`. -/
inductive RetVal where
  | dict (d : List (String × String))
  | list (items : List Item)
  | otherVal
deriving DecidableEq, Repr

/-- One `run_function` call issued during reconciliation. -/
inductive JobAction where
  | findJob (jid : String)
  | killJob (jid : String)
deriving DecidableEq, Repr

/-- The synthesized diagnostic line appended for a jid:
`'[TEST SUITE ENFORCED]' + msg + '[/TEST SUITE ENFORCED]'` with
`msg = 'A running state.single was found causing a state lock. Job details: {0!r}  Killing Job Returned: {1!r}'`. -/
def mkDiag (fj kj : String → String) (jid : String) : String :=
  "[TEST SUITE ENFORCED]A running state.single was found causing a state lock. Job details: "
    ++ fj jid ++ "  Killing Job Returned: " ++ kj jid ++ "[/TEST SUITE ENFORCED]"

/-- The scan loop of `_check_state_return` over the copied list, carrying
the `jids` already handled in this pass.  Returns the lines appended to
`ret` (in append order) and the trace of `find_job`/`kill_job` calls. -/
def reconLoop (fj kj : String → String) :
    List Item → List String → List Item × List JobAction
  | [], _ => ([], [])
  | item :: rest, jids =>
    match item with
    | .nonStr => reconLoop fj kj rest jids
    | .str s =>
      match markerJid s with
      | none => reconLoop fj kj rest jids
      | some jid =>
        if jid ∈ jids then reconLoop fj kj rest jids
        else
          let p := reconLoop fj kj rest (jids ++ [jid])
          (Item.str (mkDiag fj kj jid) :: p.1,
           JobAction.findJob jid :: JobAction.killJob jid :: p.2)

/-- `ModuleCase._check_state_return`. -/
def check_state_return (fj kj : String → String) : RetVal → RetVal
  | .dict d => .dict d
  | .list items => .list (items ++ (reconLoop fj kj items []).1)
  | .otherVal => .otherVal

/-- The `find_job`/`kill_job` calls issued by one reconciliation pass. -/
def reconActions (fj kj : String → String) (items : List Item) : List JobAction :=
  (reconLoop fj kj items []).2

/-- First occurrences of jids of matching lines, skipping ones already in
`seen` — the order in which the pass handles jids. -/
def uniqueJids : List Item → List String → List String
  | [], _ => []
  | item :: rest, seen =>
    match item with
    | .nonStr => uniqueJids rest seen
    | .str s =>
      match markerJid s with
      | none => uniqueJids rest seen
      | some jid =>
        if jid ∈ seen then uniqueJids rest seen
        else jid :: uniqueJids rest (seen ++ [jid])

/-! ### The process runner `ShellTestCase.run_script`

The runner's interaction with the operating system is abstracted into a
`World`: whether the resolved script path exists, whether the platform is
Windows, the status each `process.poll()` call observes (`None` while the
child runs), whether each wall-clock comparison `datetime.now() > stop_at`
has tripped by the time of the i-th loop iteration, the `errno` (if any)
raised by the two `os.killpg` deliveries, and the data `communicate()`
returns.  We model the Python >= 2.7 branch (`communicate`, not the 2.6
`wait`/`read` workaround). -/

structure World where
  scriptExists : Bool
  isWindows : Bool
  pollStatus : Nat → Option Int
  deadlinePassed : Nat → Bool
  sigintErrno : Option Nat
  sigkillErrno : Option Nat
  commOut : String
  commErr : String
  commCode : Int

/-- An output position of the result: a raw blob (`raw=True`) or the
`splitlines()` line list. -/
inductive Output where
  | raw (s : String)
  | lines (ls : List String)
deriving DecidableEq, Repr

/-- The value `run_script` returns: the soft-failure sentinel `False`, or
one of the four positional shapes. -/
inductive RunResult where
  | falseSentinel
  | out1 (o : Output)
  | outCode (o : Output) (c : Option Int)
  | outErr (o e : Output)
  | outErrCode (o e : Output) (c : Option Int)
deriving DecidableEq, Repr

/-- An exception escaping `run_script`. -/
inductive Exc where
  | runtimeError (msg : String)
  | osError (errno : Nat)
deriving DecidableEq, Repr

/-- How one call to `run_script` ends: a returned value, a raised
exception, or (fuel exhausted) the busy-wait loop never terminating. -/
inductive Outcome where
  | ret (r : RunResult)
  | raised (e : Exc)
  | diverges
deriving DecidableEq, Repr

/-- Observable side effects of one `run_script` call: whether
`subprocess.Popen` ran, which captured stream handles were closed, how
many `os.killpg` deliveries of each signal were attempted, and whether
`process.terminate()` was called. -/
structure Eff where
  spawned : Bool
  closedStdout : Bool
  closedStderr : Bool
  sigintsSent : Nat
  sigkillsSent : Nat
  terminated : Bool
deriving DecidableEq, Repr

def initEff : Eff := ⟨false, false, false, 0, 0, false⟩

def Eff.spawn (e : Eff) : Eff :=
  ⟨true, e.closedStdout, e.closedStderr, e.sigintsSent, e.sigkillsSent, e.terminated⟩

def Eff.incInt (e : Eff) : Eff :=
  ⟨e.spawned, e.closedStdout, e.closedStderr, e.sigintsSent + 1, e.sigkillsSent, e.terminated⟩

def Eff.incKill (e : Eff) : Eff :=
  ⟨e.spawned, e.closedStdout, e.closedStderr, e.sigintsSent, e.sigkillsSent + 1, e.terminated⟩

def Eff.closeOut (e : Eff) : Eff :=
  ⟨e.spawned, true, e.closedStderr, e.sigintsSent, e.sigkillsSent, e.terminated⟩

def Eff.closeErr (e : Eff) : Eff :=
  ⟨e.spawned, e.closedStdout, true, e.sigintsSent, e.sigkillsSent, e.terminated⟩

def Eff.term (e : Eff) : Eff :=
  ⟨e.spawned, e.closedStdout, e.closedStderr, e.sigintsSent, e.sigkillsSent, true⟩

/-- Python `str.splitlines()` restricted to `\n` separators: split on
newlines, with no trailing empty line for a trailing newline. -/
def splitLinesAux : List Char → List Char → List (List Char)
  | [], [] => []
  | [], acc => [acc.reverse]
  | c :: cs, acc =>
    if c = '\n' then acc.reverse :: splitLinesAux cs []
    else splitLinesAux cs (c :: acc)

def splitLines (s : String) : List String :=
  (splitLinesAux s.data []).map (fun l => String.mk l)

/-- `'Process took more than {0} seconds to complete. Process Killed!'.format(timeout)`. -/
def timeoutMsg (t : Nat) : String :=
  "Process took more than " ++ toString t ++ " seconds to complete. Process Killed!"

/-- `'Process killed, unable to catch stderr output'`. -/
def stderrSentinel : String := "Process killed, unable to catch stderr output"

/-- The value built on the timeout-kill return path (lines 253-266 of
`case.py`): `out` is always the one-element line list `[timeoutMsg t]`
(the `raw` flag is not consulted on this path), `err` is the sentinel line
list when stderr was captured, and the code position is
`process.returncode` as set by the last `poll`. -/
def timeoutResult (t : Nat) (cs wr : Bool) (status : Option Int) : RunResult :=
  let out := Output.lines [timeoutMsg t]
  if cs then
    if wr then RunResult.outErrCode out (Output.lines [stderrSentinel]) status
    else RunResult.outErr out (Output.lines [stderrSentinel])
  else
    if wr then RunResult.outCode out status
    else RunResult.out1 out

/-- How the busy-wait loop ends: fall through to stream capture (the child
exited before the deadline), or finish `run_script` (timeout return, raise,
or fuel exhaustion standing for an infinite busy wait). -/
inductive LoopExit where
  | toCapture (e : Eff)
  | finished (o : Outcome) (e : Eff)
deriving Repr

/-- The timeout busy-wait loop (lines 231-269 of `case.py`).  Iteration
`i`: `process.poll()` observes `w.pollStatus i`; if the deadline has
passed, the first breach sends `SIGINT` to the process group (any OS error
propagates) and `continue`s, a later breach sends `SIGKILL` (errno 3 is
swallowed, others propagate) and returns the timeout result built from the
returncode of this iteration's poll; otherwise the loop breaks to stream
capture once the polled returncode is non-`None`. -/
def loopRun (w : World) (t : Nat) (cs wr : Bool) :
    Nat → Nat → Bool → Eff → LoopExit
  | 0, _, _, eff => .finished .diverges eff
  | fuel + 1, i, termSent, eff =>
    let status := w.pollStatus i
    if w.deadlinePassed i then
      if termSent then
        let eff2 := eff.incKill
        match w.sigkillErrno with
        | some e =>
          if e ≠ 3 then .finished (.raised (.osError e)) eff2
          else .finished (.ret (timeoutResult t cs wr status)) eff2
        | none => .finished (.ret (timeoutResult t cs wr status)) eff2
      else
        let eff2 := eff.incInt
        match w.sigintErrno with
        | some e => .finished (.raised (.osError e)) eff2
        | none => loopRun w t cs wr fuel (i + 1) true eff2
    else
      if status ≠ none then .toCapture eff
      else loopRun w t cs wr fuel (i + 1) termSent eff

/-- The stream-capture tail of `run_script` (lines 271-341 of `case.py`,
Python >= 2.7 branch): `communicate()`, close the captured handles, shape
the result per `with_retcode`/`raw`, and `terminate()` in the `finally`. -/
def capturePhase (w : World) (cs wr raw : Bool) (eff : Eff) : Outcome × Eff :=
  if cs then
    let out := w.commOut
    let err := w.commErr
    let eff2 := eff.closeOut.closeErr
    let r :=
      if wr then
        if raw then RunResult.outErrCode (.raw out) (.raw err) (some w.commCode)
        else RunResult.outErrCode (.lines (splitLines out)) (.lines (splitLines err)) (some w.commCode)
      else
        if raw then RunResult.outErr (.raw out) (.raw err)
        else RunResult.outErr (.lines (splitLines out)) (.lines (splitLines err))
    (.ret r, eff2.term)
  else
    let out := w.commOut
    let eff2 := eff.closeOut
    let r :=
      if wr then
        if raw then RunResult.outCode (.raw out) (some w.commCode)
        else RunResult.outCode (.lines (splitLines out)) (some w.commCode)
      else
        if raw then RunResult.out1 (.raw out)
        else RunResult.out1 (.lines (splitLines out))
    (.ret r, eff2.term)

/-- `ShellTestCase.run_script(script, arg_str, catch_stderr, with_retcode,
timeout, raw)`.  If the resolved script path is missing it returns the
`False` sentinel; on Windows a requested timeout raises
`RuntimeError('Timeout is not supported under windows')` before
`subprocess.Popen`; otherwise the child is spawned, the timeout loop runs
when a timeout was given, and the capture phase shapes the return. -/
def run_script (w : World) (cs wr : Bool) (timeout : Option Nat) (raw : Bool)
    (fuel : Nat) : Outcome × Eff :=
  if w.scriptExists = false then (.ret .falseSentinel, initEff)
  else if w.isWindows && timeout.isSome then
    (.raised (.runtimeError "Timeout is not supported under windows"), initEff)
  else
    let eff1 := initEff.spawn
    match timeout with
    | none => capturePhase w cs wr raw eff1
    | some t =>
      match loopRun w t cs wr fuel 0 false eff1 with
      | .toCapture eff => capturePhase w cs wr raw eff
      | .finished o eff => (o, eff)

/-! ### Spec-side shape contract

`requestedShapeMatches r cs wr raw` renders the spec's Execution Result
contract (spec section 3): the positional shape is determined by
`capture_stderr`/`want_exit_code`, and every output position is a raw blob
exactly when `raw_output` is set, a line list otherwise.  This definition
follows the spec's words and is compared against what the code returns. -/

def outputIsRaw : Output → Bool
  | .raw _ => true
  | .lines _ => false

def requestedShapeMatches (r : RunResult) (cs wr raw : Bool) : Bool :=
  match r with
  | .falseSentinel => false
  | .out1 o => cs = false && wr = false && outputIsRaw o = raw
  | .outCode o _ => cs = false && wr = true && outputIsRaw o = raw
  | .outErr o e => cs = true && wr = false && outputIsRaw o = raw && outputIsRaw e = raw
  | .outErrCode o e _ =>
    cs = true && wr = true && outputIsRaw o = raw && outputIsRaw e = raw

/-- The exit-code position of a result, when the shape carries one. -/
def resultCode : RunResult → Option (Option Int)
  | .outCode _ c => some c
  | .outErrCode _ _ c => some c
  | _ => none

/-- The stderr position of a result, when the shape carries one. -/
def resultErr : RunResult → Option Output
  | .outErr _ e => some e
  | .outErrCode _ e _ => some e
  | _ => none

/-- The first line of the stdout position, when it is a line list. -/
def firstOutLine : RunResult → Option String
  | .out1 (.lines (l :: _)) => some l
  | .outCode (.lines (l :: _)) _ => some l
  | .outErr (.lines (l :: _)) _ => some l
  | .outErrCode (.lines (l :: _)) _ _ => some l
  | _ => none

/-- A call's outcome is a returned value of the shape the flags request. -/
def outcomeShapeOk (o : Outcome) (cs wr raw : Bool) : Bool :=
  match o with
  | .ret r => requestedShapeMatches r cs wr raw
  | _ => false

/-- The jid a list item's marker match extracts, if any. -/
def itemJid : Item → Option String
  | .str s => markerJid s
  | .nonStr => none

/-- A marker line with chosen opening and closing quote characters around
the function name. -/
def mkMarkerLine (q1 q2 : Char) : String :=
  "The function " ++ String.mk [q1] ++ "state.sls" ++ String.mk [q2]
    ++ " is running as PID 123 and was started at 2020-01-01T00:00:00 with jid 456"

/-! ### Helper lemmas about the reconciler -/

/-- The scan loop appends one diagnostic per first-occurrence jid, in
order, and issues a `find_job` and a `kill_job` call for each. -/
theorem reconLoop_eq (fj kj : String → String) :
    ∀ (items : List Item) (seen : List String),
      reconLoop fj kj items seen =
        ((uniqueJids items seen).map (fun j => Item.str (mkDiag fj kj j)),
         (uniqueJids items seen).flatMap
           (fun j => [JobAction.findJob j, JobAction.killJob j]))
  | [], _ => rfl
  | item :: rest, seen => by
    cases item with
    | nonStr =>
      simpa [reconLoop, uniqueJids] using reconLoop_eq fj kj rest seen
    | str s =>
      cases hm : markerJid s with
      | none =>
        simp [reconLoop, uniqueJids, hm, reconLoop_eq fj kj rest seen]
      | some jid =>
        by_cases hj : jid ∈ seen
        · simp [reconLoop, uniqueJids, hm, hj, reconLoop_eq fj kj rest seen]
        · simp [reconLoop, uniqueJids, hm, hj,
            reconLoop_eq fj kj rest (seen ++ [jid])]

/-- The first-occurrence jid list avoids `seen` and has no duplicates. -/
theorem uniqueJids_disjoint_nodup :
    ∀ (items : List Item) (seen : List String),
      (∀ j ∈ uniqueJids items seen, j ∉ seen) ∧ (uniqueJids items seen).Nodup
  | [], seen => by simp [uniqueJids]
  | item :: rest, seen => by
    cases item with
    | nonStr =>
      simpa [uniqueJids] using uniqueJids_disjoint_nodup rest seen
    | str s =>
      cases hm : markerJid s with
      | none =>
        simpa [uniqueJids, hm] using uniqueJids_disjoint_nodup rest seen
      | some jid =>
        by_cases hj : jid ∈ seen
        · simpa [uniqueJids, hm, hj] using uniqueJids_disjoint_nodup rest seen
        · have ih := uniqueJids_disjoint_nodup rest (seen ++ [jid])
          refine ⟨?_, ?_⟩
          · intro j hjmem
            simp only [uniqueJids, hm, hj, if_false, List.mem_cons] at hjmem
            rcases hjmem with rfl | hjmem
            · exact hj
            · have := ih.1 j hjmem
              simp only [List.mem_append, List.mem_singleton] at this
              exact fun hc => this (Or.inl hc)
          · simp only [uniqueJids, hm, hj, if_false, List.nodup_cons]
            refine ⟨fun hc => ?_, ih.2⟩
            have := ih.1 jid hc
            simp at this
  termination_by items _ => items.length

/-- Counting one jid's actions in the flattened action trace counts the
jid in the handled-jid list. -/
theorem actions_count (a : String) :
    ∀ (l : List String),
      ((l.flatMap fun j => [JobAction.findJob j, JobAction.killJob j]).count
          (JobAction.findJob a) = l.count a)
      ∧ ((l.flatMap fun j => [JobAction.findJob j, JobAction.killJob j]).count
          (JobAction.killJob a) = l.count a)
  | [] => by simp
  | j :: l => by
    have ih := actions_count a l
    by_cases hja : j = a <;>
      simp [List.count_cons, List.count_append, ih.1, ih.2, hja]

/-- A pass over items with no marker match handles no jids. -/
theorem uniqueJids_eq_nil :
    ∀ (items : List Item), (∀ item ∈ items, itemJid item = none) →
      ∀ (seen : List String), uniqueJids items seen = []
  | [], _, _ => rfl
  | item :: rest, h, seen => by
    have hrest := uniqueJids_eq_nil rest (fun it hit => h it (List.mem_cons_of_mem _ hit))
    cases item with
    | nonStr => simp [uniqueJids, hrest]
    | str s =>
      have hs : markerJid s = none := by
        simpa [itemJid] using h (Item.str s) (List.mem_cons_self _ _)
      simp [uniqueJids, hs, hrest]

/-! ### Claim theorems: the reconciler -/

/-- C5: for every list input, `_check_state_return` returns the original
lines verbatim and in order (never deleting or rewriting one), followed by
exactly one synthesized diagnostic per matched marker line's unique jid
(the duplicate-free first-occurrence list `uniqueJids items []`), each
diagnostic containing that jid's `find_job` and `kill_job` results. -/
theorem claim5_reconciler_appends_only (fj kj : String → String) (items : List Item) :
    check_state_return fj kj (RetVal.list items) =
      RetVal.list (items ++ (uniqueJids items []).map (fun j => Item.str (mkDiag fj kj j)))
    ∧ (uniqueJids items []).Nodup
    ∧ ∀ j, mkDiag fj kj j =
        "[TEST SUITE ENFORCED]A running state.single was found causing a state lock. Job details: "
          ++ fj j ++ "  Killing Job Returned: " ++ kj j ++ "[/TEST SUITE ENFORCED]" := by
  refine ⟨?_, (uniqueJids_disjoint_nodup items []).2, fun j => rfl⟩
  simp [check_state_return, reconLoop_eq fj kj items []]

/-- C6: within one reconciliation pass, every jid is queried
(`saltutil.find_job`) at most once and killed (`saltutil.kill_job`) at
most once, even when several marker lines carry the same jid. -/
theorem claim6_one_query_one_kill_per_jid (fj kj : String → String)
    (items : List Item) (jid : String) :
    (reconActions fj kj items).count (JobAction.findJob jid) ≤ 1
    ∧ (reconActions fj kj items).count (JobAction.killJob jid) ≤ 1 := by
  have hn := (uniqueJids_disjoint_nodup items []).2
  have hc : (uniqueJids items []).count jid ≤ 1 :=
    List.nodup_iff_count_le_one.mp hn jid
  have he := actions_count jid (uniqueJids items [])
  unfold reconActions
  rw [reconLoop_eq fj kj items []]
  exact ⟨by rw [he.1]; exact hc, by rw [he.2]; exact hc⟩

/-- C8: `_check_state_return` is the identity on a mapping input and on a
list of lines in which no line matches the marker pattern. -/
theorem claim8_identity_when_nothing_to_do (fj kj : String → String) :
    (∀ d, check_state_return fj kj (RetVal.dict d) = RetVal.dict d)
    ∧ ∀ (items : List Item), (∀ item ∈ items, itemJid item = none) →
        check_state_return fj kj (RetVal.list items) = RetVal.list items := by
  refine ⟨fun d => rfl, fun items h => ?_⟩
  simp [check_state_return, reconLoop_eq fj kj items [],
    uniqueJids_eq_nil items h []]

/-- Witness for C8 at a concrete matcher-free line list. -/
theorem claim8_witness :
    (∀ item ∈ [Item.str "a", Item.str "b", Item.nonStr], itemJid item = none)
    ∧ check_state_return (fun _ => "q") (fun _ => "k")
        (RetVal.list [Item.str "a", Item.str "b", Item.nonStr]) =
      RetVal.list [Item.str "a", Item.str "b", Item.nonStr] :=
  ⟨by decide,
    (claim8_identity_when_nothing_to_do (fun _ => "q") (fun _ => "k")).2 _ (by decide)⟩

/-- C9: `STATE_FUNCTION_RUNNING_RE` matches the two quote characters
around the function name independently, so a marker line whose opening and
closing quotes differ is still recognized (its jid is extracted) and still
triggers reconciliation (a diagnostic is appended). -/
theorem claim9_mismatched_quotes_match (q1 q2 : Char) (fj kj : String → String)
    (h1 : isQuote q1 = true) (h2 : isQuote q2 = true) :
    markerJid (mkMarkerLine q1 q2) = some "456"
    ∧ check_state_return fj kj (RetVal.list [Item.str (mkMarkerLine q1 q2)]) =
        RetVal.list [Item.str (mkMarkerLine q1 q2), Item.str (mkDiag fj kj "456")] := by
  have hq1 : q1 = dquote ∨ q1 = squote := by simpa [isQuote] using h1
  have hq2 : q2 = dquote ∨ q2 = squote := by simpa [isQuote] using h2
  have hm : markerJid (mkMarkerLine q1 q2) = some "456" := by
    rcases hq1 with rfl | rfl <;> rcases hq2 with rfl | rfl <;> decide
  refine ⟨hm, ?_⟩
  simp [check_state_return, reconLoop, hm]

/-- Witness for C9: opening double quote, closing single quote. -/
theorem claim9_witness :
    (isQuote dquote = true ∧ isQuote squote = true ∧ dquote ≠ squote)
    ∧ markerJid (mkMarkerLine dquote squote) = some "456" :=
  ⟨⟨by decide, by decide, by decide⟩,
    (claim9_mismatched_quotes_match dquote squote (fun _ => "") (fun _ => "")
      (by decide) (by decide)).1⟩

/-! ### Helper lemmas about the busy-wait loop -/

/-- While the deadline has not passed and every poll sees the child still
running, the loop spins: `n` such iterations only consume fuel and advance
the iteration counter. -/
theorem loopRun_skip (w : World) (t : Nat) (cs wr : Bool) :
    ∀ (n fuel i : Nat) (ts : Bool) (eff : Eff),
      (∀ d, d < n → w.deadlinePassed (i + d) = false ∧ w.pollStatus (i + d) = none) →
      loopRun w t cs wr (n + fuel) i ts eff = loopRun w t cs wr fuel (i + n) ts eff := by
  intro n
  induction n with
  | zero => intro fuel i ts eff _; simp
  | succ n ih =>
    intro fuel i ts eff h
    have h0 := h 0 (by omega)
    simp only [Nat.add_zero] at h0
    have hrw : n + 1 + fuel = (n + fuel) + 1 := by omega
    rw [hrw]
    have hstep : loopRun w t cs wr ((n + fuel) + 1) i ts eff
        = loopRun w t cs wr (n + fuel) (i + 1) ts eff := by
      simp [loopRun, h0.1, h0.2]
    rw [hstep]
    have ih2 := ih fuel (i + 1) ts eff (fun d hd => by
      have hh := h (d + 1) (by omega)
      have e : i + 1 + d = i + (d + 1) := by omega
      rw [e]
      exact hh)
    rw [ih2]
    have e : i + 1 + n = i + (n + 1) := by omega
    rw [e]

/-- The loop under a deadline breach at iteration `k` (the child not having
exited at any earlier poll): the first breach delivers the interrupt —
any `killpg` error propagating — and the next iteration delivers the kill —
errno 3 swallowed, other errors propagating — and returns the timeout
result built from the returncode seen by the final poll, at `k + 1`. -/
theorem loopRun_deadline (w : World) (t : Nat) (cs wr : Bool) (k fuel : Nat) (eff : Eff)
    (hk : ∀ i, i < k → w.deadlinePassed i = false ∧ w.pollStatus i = none)
    (hd0 : w.deadlinePassed k = true)
    (hd1 : w.deadlinePassed (k + 1) = true)
    (hfuel : k + 2 ≤ fuel) :
    loopRun w t cs wr fuel 0 false eff =
      (match w.sigintErrno with
       | some e => LoopExit.finished (.raised (.osError e)) eff.incInt
       | none =>
         match w.sigkillErrno with
         | some e =>
           if e ≠ 3 then LoopExit.finished (.raised (.osError e)) eff.incInt.incKill
           else LoopExit.finished
             (.ret (timeoutResult t cs wr (w.pollStatus (k + 1)))) eff.incInt.incKill
         | none => LoopExit.finished
             (.ret (timeoutResult t cs wr (w.pollStatus (k + 1)))) eff.incInt.incKill) := by
  obtain ⟨m, rfl⟩ : ∃ m, fuel = k + (m + 2) := ⟨fuel - k - 2, by omega⟩
  have hskip := loopRun_skip w t cs wr k (m + 2) 0 false eff (fun d hd => by
    have hh := hk d hd
    simpa using hh)
  rw [hskip]
  simp only [Nat.zero_add]
  have e2 : m + 2 = (m + 1) + 1 := by omega
  rw [e2]
  cases hsi : w.sigintErrno with
  | some e => simp [loopRun, hd0, hsi]
  | none =>
    cases hsk : w.sigkillErrno with
    | some e => simp [loopRun, hd0, hd1, hsi, hsk]
    | none => simp [loopRun, hd0, hd1, hsi, hsk]

/-! ### Claim theorems: the process runner -/

/-- C1: with no timeout (and the script present, so the runner actually
spawns), `run_script` returns a value whose positional shape and
raw/line-list form match exactly the requested
`catch_stderr`/`with_retcode`/`raw` combination. -/
theorem claim1_no_timeout_shape (w : World) (cs wr raw : Bool) (fuel : Nat)
    (h : w.scriptExists = true) :
    outcomeShapeOk (run_script w cs wr none raw fuel).1 cs wr raw = true := by
  cases cs <;> cases wr <;> cases raw <;>
    simp [run_script, h, capturePhase, outcomeShapeOk, requestedShapeMatches, outputIsRaw]

/-- Witness for C1 at a concrete world and flag combination. -/
theorem claim1_witness :
    (⟨true, false, fun _ => none, fun _ => false, none, none, "hello", "", 0⟩ : World).scriptExists
      = true
    ∧ outcomeShapeOk
        (run_script ⟨true, false, fun _ => none, fun _ => false, none, none, "hello", "", 0⟩
          true true none true 3).1 true true true = true :=
  ⟨rfl,
    claim1_no_timeout_shape
      ⟨true, false, fun _ => none, fun _ => false, none, none, "hello", "", 0⟩
      true true true 3 rfl⟩

/-- C2 as stated is false: on the timeout-kill path the `raw` flag is not
consulted, so with `raw = true` the returned value is a line list where
the requested shape would be a raw blob.  Concretely: the deadline is
already breached at the first poll and the child never exits; the call
returns `out` as `Output.lines`, and the spec-side shape check against
`raw = true` rejects it. -/
theorem claim2_counterexample :
    run_script ⟨true, false, fun _ => none, fun _ => true, none, none, "", "", 0⟩
        false false (some 1) true 5 =
      (Outcome.ret (RunResult.out1 (Output.lines [timeoutMsg 1])),
        ⟨true, false, false, 1, 1, false⟩)
    ∧ requestedShapeMatches (RunResult.out1 (Output.lines [timeoutMsg 1]))
        false false true = false :=
  ⟨rfl, rfl⟩

/-- C2 amended: on the timeout-kill path the first output line is exactly
`'Process took more than {timeout} seconds to complete. Process Killed!'`,
the stderr position is the sentinel line when stderr capture was
requested, and the shape matches the `catch_stderr`/`with_retcode`
combination with every output position a line list regardless of the
`raw` flag. -/
theorem claim2_timeout_message_and_shape (w : World) (cs wr raw : Bool) (t k fuel : Nat)
    (hscript : w.scriptExists = true) (hwin : w.isWindows = false)
    (hk : ∀ i, i < k → w.deadlinePassed i = false ∧ w.pollStatus i = none)
    (hd0 : w.deadlinePassed k = true) (hd1 : w.deadlinePassed (k + 1) = true)
    (hsi : w.sigintErrno = none) (hsk : w.sigkillErrno = none)
    (hfuel : k + 2 ≤ fuel) :
    run_script w cs wr (some t) raw fuel =
      (Outcome.ret (timeoutResult t cs wr (w.pollStatus (k + 1))),
        initEff.spawn.incInt.incKill)
    ∧ firstOutLine (timeoutResult t cs wr (w.pollStatus (k + 1))) = some (timeoutMsg t)
    ∧ (cs = true → resultErr (timeoutResult t cs wr (w.pollStatus (k + 1)))
        = some (Output.lines [stderrSentinel]))
    ∧ requestedShapeMatches (timeoutResult t cs wr (w.pollStatus (k + 1))) cs wr false
        = true := by
  have hloop := loopRun_deadline w t cs wr k fuel initEff.spawn hk hd0 hd1 hfuel
  simp only [hsi, hsk] at hloop
  refine ⟨?_, ?_, ?_, ?_⟩
  · simp [run_script, hscript, hwin, hloop]
  · cases cs <;> cases wr <;> simp [timeoutResult, firstOutLine]
  · intro hcs; subst hcs; cases wr <;> simp [timeoutResult, resultErr]
  · cases cs <;> cases wr <;>
      simp [timeoutResult, requestedShapeMatches, outputIsRaw]

/-- Witness for C2's amended theorem: deadline already breached at the
first poll, child never exits, `catch_stderr`/`with_retcode`/`raw` all
set. -/
theorem claim2_witness :
    run_script ⟨true, false, fun _ => none, fun _ => true, none, none, "", "", 0⟩
        true true (some 7) true 2 =
      (Outcome.ret (timeoutResult 7 true true none), initEff.spawn.incInt.incKill) :=
  (claim2_timeout_message_and_shape
    ⟨true, false, fun _ => none, fun _ => true, none, none, "", "", 0⟩
    true true true 7 0 2 rfl rfl (fun i hi => absurd hi (Nat.not_lt_zero i))
    rfl rfl rfl rfl (by omega)).1

/-- C3 as stated is false: the errno-3 tolerance only guards the kill
delivery; the initial interrupt delivery is not wrapped, so an OS error
meaning `no such process` (errno 3) raised by `os.killpg(..., SIGINT)`
propagates to the caller instead of being swallowed. -/
theorem claim3_counterexample :
    run_script ⟨true, false, fun _ => none, fun _ => true, some 3, none, "", "", 0⟩
        false false (some 1) false 5 =
      (Outcome.raised (Exc.osError 3), ⟨true, false, false, 1, 0, false⟩) :=
  rfl

/-- C3 amended: during timeout escalation, any OS error from the interrupt
delivery (errno 3 included) propagates; for the kill delivery errno 3 is
swallowed (the call still returns the timeout result) and any other errno
propagates. -/
theorem claim3_signal_error_handling (w : World) (cs wr raw : Bool) (t k fuel : Nat)
    (hscript : w.scriptExists = true) (hwin : w.isWindows = false)
    (hk : ∀ i, i < k → w.deadlinePassed i = false ∧ w.pollStatus i = none)
    (hd0 : w.deadlinePassed k = true) (hd1 : w.deadlinePassed (k + 1) = true)
    (hfuel : k + 2 ≤ fuel) :
    (∀ e, w.sigintErrno = some e →
      run_script w cs wr (some t) raw fuel =
        (Outcome.raised (Exc.osError e), initEff.spawn.incInt))
    ∧ (∀ e, w.sigintErrno = none → w.sigkillErrno = some e → e ≠ 3 →
      run_script w cs wr (some t) raw fuel =
        (Outcome.raised (Exc.osError e), initEff.spawn.incInt.incKill))
    ∧ (w.sigintErrno = none → w.sigkillErrno = some 3 →
      run_script w cs wr (some t) raw fuel =
        (Outcome.ret (timeoutResult t cs wr (w.pollStatus (k + 1))),
          initEff.spawn.incInt.incKill)) := by
  refine ⟨?_, ?_, ?_⟩
  · intro e hsi
    have hloop := loopRun_deadline w t cs wr k fuel initEff.spawn hk hd0 hd1 hfuel
    simp only [hsi] at hloop
    simp [run_script, hscript, hwin, hloop]
  · intro e hsi hsk he
    have hloop := loopRun_deadline w t cs wr k fuel initEff.spawn hk hd0 hd1 hfuel
    simp only [hsi, hsk, if_pos he] at hloop
    simp [run_script, hscript, hwin, hloop]
  · intro hsi hsk
    have hloop := loopRun_deadline w t cs wr k fuel initEff.spawn hk hd0 hd1 hfuel
    simp only [hsi, hsk] at hloop
    simp [run_script, hscript, hwin, hloop]

/-- Witness for C3's amended theorem: a kill-delivery errno other than 3
(here 7) propagates. -/
theorem claim3_witness :
    run_script ⟨true, false, fun _ => none, fun _ => true, none, some 7, "", "", 0⟩
        false false (some 1) false 5 =
      (Outcome.raised (Exc.osError 7), initEff.spawn.incInt.incKill) :=
  (claim3_signal_error_handling
    ⟨true, false, fun _ => none, fun _ => true, none, some 7, "", "", 0⟩
    false false false 1 0 5 rfl rfl (fun i hi => absurd hi (Nat.not_lt_zero i))
    rfl rfl (by omega)).2.1 7 rfl rfl (by omega)

/-- C4 as stated is false: the timeout-kill path returns without closing
the captured stream handles.  Concretely, with stderr captured and the
deadline breached at the first poll, the call returns the timeout result
while neither stdout nor stderr was closed. -/
theorem claim4_counterexample :
    (run_script ⟨true, false, fun _ => none, fun _ => true, none, none, "", "", 0⟩
        true false (some 2) false 5).1 = Outcome.ret (timeoutResult 2 true false none)
    ∧ (run_script ⟨true, false, fun _ => none, fun _ => true, none, none, "", "", 0⟩
        true false (some 2) false 5).2.closedStdout = false
    ∧ (run_script ⟨true, false, fun _ => none, fun _ => true, none, none, "", "", 0⟩
        true false (some 2) false 5).2.closedStderr = false :=
  ⟨rfl, rfl, rfl⟩

/-- C4 amended: on the no-timeout completion path the child's stdout
handle (and stderr when captured) is closed before the return, but on the
timeout-kill path no stream handle is closed before the return. -/
theorem claim4_stream_close (w : World) (cs wr raw : Bool) (t k fuel fuel2 : Nat)
    (hscript : w.scriptExists = true) (hwin : w.isWindows = false)
    (hk : ∀ i, i < k → w.deadlinePassed i = false ∧ w.pollStatus i = none)
    (hd0 : w.deadlinePassed k = true) (hd1 : w.deadlinePassed (k + 1) = true)
    (hsi : w.sigintErrno = none) (hsk : w.sigkillErrno = none)
    (hfuel : k + 2 ≤ fuel) :
    ((run_script w cs wr none raw fuel2).2.closedStdout = true
      ∧ (cs = true → (run_script w cs wr none raw fuel2).2.closedStderr = true))
    ∧ ((run_script w cs wr (some t) raw fuel).2.closedStdout = false
      ∧ (run_script w cs wr (some t) raw fuel).2.closedStderr = false) := by
  have hloop := loopRun_deadline w t cs wr k fuel initEff.spawn hk hd0 hd1 hfuel
  simp only [hsi, hsk] at hloop
  have hrun : run_script w cs wr (some t) raw fuel =
      (Outcome.ret (timeoutResult t cs wr (w.pollStatus (k + 1))),
        initEff.spawn.incInt.incKill) := by
    simp [run_script, hscript, hwin, hloop]
  refine ⟨⟨?_, ?_⟩, ?_, ?_⟩
  · cases cs <;> cases wr <;> cases raw <;>
      simp [run_script, hscript, capturePhase, initEff,
        Eff.spawn, Eff.closeOut, Eff.closeErr, Eff.term]
  · intro hcs; subst hcs
    cases wr <;> cases raw <;>
      simp [run_script, hscript, capturePhase, initEff,
        Eff.spawn, Eff.closeOut, Eff.closeErr, Eff.term]
  · rw [hrun]; rfl
  · rw [hrun]; rfl

/-- Witness for C4's amended theorem at a concrete world. -/
theorem claim4_witness :
    (run_script ⟨true, false, fun _ => none, fun _ => true, none, none, "o", "e", 0⟩
        true false (some 2) false 9).2.closedStdout = false :=
  (claim4_stream_close ⟨true, false, fun _ => none, fun _ => true, none, none, "o", "e", 0⟩
    true false false 2 0 9 3 rfl rfl (fun i hi => absurd hi (Nat.not_lt_zero i))
    rfl rfl rfl rfl (by omega)).2.1

/-- C7: with a timeout requested on Windows (no process-group signaling),
`run_script` raises `RuntimeError('Timeout is not supported under
windows')` and the returned effect trace records that no subprocess was
spawned. -/
theorem claim7_windows_timeout_no_spawn (w : World) (cs wr raw : Bool) (t fuel : Nat)
    (hscript : w.scriptExists = true) (hwin : w.isWindows = true) :
    run_script w cs wr (some t) raw fuel =
      (Outcome.raised (Exc.runtimeError "Timeout is not supported under windows"), initEff)
    ∧ initEff.spawned = false := by
  refine ⟨?_, rfl⟩
  simp [run_script, hscript, hwin]

/-- Witness for C7 at a concrete Windows world. -/
theorem claim7_witness :
    run_script ⟨true, true, fun _ => none, fun _ => false, none, none, "", "", 0⟩
        true true (some 4) true 8 =
      (Outcome.raised (Exc.runtimeError "Timeout is not supported under windows"), initEff) :=
  (claim7_windows_timeout_no_spawn
    ⟨true, true, fun _ => none, fun _ => false, none, none, "", "", 0⟩
    true true true 4 8 rfl rfl).1

/-- C10: on the timeout-kill path with `with_retcode` requested, the
exit-code position is exactly the status observed by the last poll (the
one at iteration `k + 1`, before the kill is delivered); in particular
when the child had not exited by that poll the caller receives `None`,
not the kill signal's exit status. -/
theorem claim10_timeout_code_is_last_poll (w : World) (cs raw : Bool) (t k fuel : Nat)
    (hscript : w.scriptExists = true) (hwin : w.isWindows = false)
    (hk : ∀ i, i < k → w.deadlinePassed i = false ∧ w.pollStatus i = none)
    (hd0 : w.deadlinePassed k = true) (hd1 : w.deadlinePassed (k + 1) = true)
    (hsi : w.sigintErrno = none) (hsk : w.sigkillErrno = none)
    (hfuel : k + 2 ≤ fuel) :
    (run_script w cs true (some t) raw fuel).1 =
      Outcome.ret (timeoutResult t cs true (w.pollStatus (k + 1)))
    ∧ resultCode (timeoutResult t cs true (w.pollStatus (k + 1)))
        = some (w.pollStatus (k + 1))
    ∧ (w.pollStatus (k + 1) = none →
        resultCode (timeoutResult t cs true (w.pollStatus (k + 1))) = some none) := by
  have hloop := loopRun_deadline w t cs true k fuel initEff.spawn hk hd0 hd1 hfuel
  simp only [hsi, hsk] at hloop
  refine ⟨?_, ?_, ?_⟩
  · simp [run_script, hscript, hwin, hloop]
  · cases cs <;> simp [timeoutResult, resultCode]
  · intro hnone; rw [hnone]; cases cs <;> simp [timeoutResult, resultCode]

/-- Witness for C10: the child is alive at every poll, so the exit-code
position of the returned triple is `None`. -/
theorem claim10_witness :
    resultCode (timeoutResult 5 true true
        ((⟨true, false, fun _ => none, fun _ => true, none, none, "", "", 0⟩ : World).pollStatus 1))
      = some none :=
  (claim10_timeout_code_is_last_poll
    ⟨true, false, fun _ => none, fun _ => true, none, none, "", "", 0⟩
    true false 5 0 6 rfl rfl (fun i hi => absurd hi (Nat.not_lt_zero i))
    rfl rfl rfl rfl (by omega)).2.2 rfl

end SaltCase

